import Mathlib

/-!
Verification of the memory-block abstraction layer (memblock.c) of a
persistent-memory object heap.

The definitions below are a shallow embedding of the functions in
src/libpmemobj/memblock.c.  Machine integers are modelled as `Nat` with
explicit reductions modulo `2 ^ w` wherever the C code's unsigned
arithmetic can wrap.  Memory that the code reads or writes (the zone's
chunk-header array, run bitmaps, allocation headers) is modelled as
explicit state (`Nat → Nat` maps or structure fields) threaded through
the functions.  Function-pointer dispatch tables (`memblock_header_ops`,
`mb_ops`) are flattened into matches on the corresponding tag, and
valgrind instrumentation macros (no-ops in release builds) are dropped.
Debug-only ASSERT conditions do not change the computation; where a
claim depends on one, it appears as a hypothesis or as a returned check.
-/

/-! ## Layout constants

`memblock.c` pulls these from `memblock.h` and `heap_layout.h`, which are
not part of the sources under verification; their values are modelled
from the specification. -/

/-- Modelled from the spec: a run bitmap is composed of 64-bit words
(bitmap word width, `BITS_PER_VALUE` in `heap_layout.h`). -/
def BITS_PER_VALUE : Nat := 64

/-- Modelled from the spec: the size of a huge chunk, `CHUNKSIZE` in
`heap_layout.h` (the spec's scenarios use 256 KiB). -/
def CHUNKSIZE : Nat := 262144

/-- `UINT64_MAX`, the all-ones 64-bit word. -/
def UINT64_MAX : Nat := 2 ^ 64 - 1

/-- Modelled from the spec: `ALLOC_HDR_SIZE_SHIFT` from `memblock.h`; the
compact header keeps the size in the low 48 bits of word 0 and the flags
in the high 16 bits, so the shift is 48. -/
def ALLOC_HDR_SIZE_SHIFT : Nat := 48

/-- Modelled from the spec: `ALLOC_HDR_FLAGS_MASK` from `memblock.h`, the
mask selecting the size bits (low `ALLOC_HDR_SIZE_SHIFT` bits) of the
first compact-header word. -/
def ALLOC_HDR_FLAGS_MASK : Nat := 2 ^ ALLOC_HDR_SIZE_SHIFT - 1

/-- Modelled from the spec: the compact allocation header is 16 bytes
(two 64-bit words). -/
def ALLOC_HDR_COMPACT_SIZE : Nat := 16

/-- Modelled from the spec: the cacheline size used by the compact-header
write widening, 64 bytes. -/
def CACHELINE_SIZE : Nat := 64

/-- Modelled from the spec: the fixed size of a run's metadata block
(`RUN_METASIZE`); the spec's run-decode scenario uses 2048. -/
def RUN_METASIZE : Nat := 2048

/-- Modelled from the spec: the number of chunks (and chunk-header slots)
in a zone (`MAX_CHUNK` in `heap_layout.h`). -/
def MAX_CHUNK : Nat := 65528

/-- Modelled from the spec: `sizeof(struct zone)` — a zone header (64
bytes) followed by the dense array of 64-bit chunk headers. -/
def SIZEOF_ZONE : Nat := 64 + 8 * MAX_CHUNK

/-- Modelled from the spec: `ZONE_MAX_SIZE` — zone metadata followed by
`MAX_CHUNK` chunks of `CHUNKSIZE` bytes. -/
def ZONE_MAX_SIZE : Nat := SIZEOF_ZONE + MAX_CHUNK * CHUNKSIZE

/-! Chunk types and chunk flags, modelled from the spec's data model
(the exact numeric values live in `heap_layout.h`; the claims depend only
on the values being distinct and on the flag bits being disjoint). -/

/-- Modelled from the spec: chunk type tag `CHUNK_TYPE_UNKNOWN`. -/
def CHUNK_TYPE_UNKNOWN : Nat := 0

/-- Modelled from the spec: chunk type tag `CHUNK_TYPE_FOOTER`. -/
def CHUNK_TYPE_FOOTER : Nat := 1

/-- Modelled from the spec: chunk type tag `CHUNK_TYPE_FREE`. -/
def CHUNK_TYPE_FREE : Nat := 2

/-- Modelled from the spec: chunk type tag `CHUNK_TYPE_USED`. -/
def CHUNK_TYPE_USED : Nat := 3

/-- Modelled from the spec: chunk type tag `CHUNK_TYPE_RUN`. -/
def CHUNK_TYPE_RUN : Nat := 4

/-- Modelled from the spec: chunk type tag `CHUNK_TYPE_RUN_DATA`. -/
def CHUNK_TYPE_RUN_DATA : Nat := 5

/-- Modelled from the spec: chunk flag bit `CHUNK_FLAG_COMPACT_HEADER`. -/
def CHUNK_FLAG_COMPACT_HEADER : Nat := 1

/-- Modelled from the spec: chunk flag bit `CHUNK_FLAG_HEADER_NONE`. -/
def CHUNK_FLAG_HEADER_NONE : Nat := 2

/-- Modelled from the spec: chunk flag bit `CHUNK_FLAG_ALIGNED`. -/
def CHUNK_FLAG_ALIGNED : Nat := 4

/-! ## 64-bit arithmetic helpers -/

/-- 64-bit unsigned addition (wraps modulo `2 ^ 64`). -/
def add64 (a b : Nat) : Nat := (a + b) % 2 ^ 64

/-- 64-bit unsigned subtraction (wraps modulo `2 ^ 64`). -/
def sub64 (a b : Nat) : Nat := (a + (2 ^ 64 - b % 2 ^ 64)) % 2 ^ 64

/-- 32-bit unsigned subtraction (wraps modulo `2 ^ 32`), for the
`uint32_t` chunk-id arithmetic. -/
def sub32 (a b : Nat) : Nat := (a + (2 ^ 32 - b % 2 ^ 32)) % 2 ^ 32

/-- Bitwise complement of a 64-bit value (`~x` in C): exclusive or with
the all-ones word. -/
def not64 (a : Nat) : Nat := a % 2 ^ 64 ^^^ UINT64_MAX

/-- The `ALIGN_UP(size, alignment)` macro:
`((size) + (alignment) - 1) & ~((alignment) - 1)`, in 64-bit unsigned
arithmetic. -/
def ALIGN_UP (x align : Nat) : Nat :=
  sub64 (add64 x align) 1 &&& not64 (sub64 align 1)

/-! ## Enumerations and the memory-block descriptor -/

/-- `enum header_type` — the allocation-header flavor of a block. -/
inductive HeaderType where
  | HEADER_LEGACY
  | HEADER_COMPACT
  | HEADER_NONE
deriving DecidableEq

export HeaderType (HEADER_LEGACY HEADER_COMPACT HEADER_NONE)

/-- `enum memory_block_type` — huge chunk or run sub-block. -/
inductive MemoryBlockType where
  | MEMORY_BLOCK_HUGE
  | MEMORY_BLOCK_RUN
deriving DecidableEq

export MemoryBlockType (MEMORY_BLOCK_HUGE MEMORY_BLOCK_RUN)

/-- `enum memblock_state`. -/
inductive MemblockState where
  | MEMBLOCK_STATE_UNKNOWN
  | MEMBLOCK_ALLOCATED
  | MEMBLOCK_FREE
deriving DecidableEq

export MemblockState (MEMBLOCK_STATE_UNKNOWN MEMBLOCK_ALLOCATED MEMBLOCK_FREE)

/-- `enum redo_operation_type` of the redo-log entries consumed through
`operation_add_entry`. -/
inductive RedoOperation where
  | REDO_OPERATION_SET
  | REDO_OPERATION_AND
  | REDO_OPERATION_OR
deriving DecidableEq

export RedoOperation (REDO_OPERATION_SET REDO_OPERATION_AND REDO_OPERATION_OR)

/-- The entry kind of `operation_add_typed_entry`. -/
inductive LogType where
  | LOG_PERSISTENT
  | LOG_TRANSIENT
deriving DecidableEq

export LogType (LOG_PERSISTENT LOG_TRANSIENT)

/-- `struct memory_block` — the transient descriptor (the `heap` and
`m_ops` fields are passed explicitly / implied by `type`). -/
structure MemoryBlock where
  chunk_id : Nat
  zone_id : Nat
  size_idx : Nat
  block_off : Nat
  header_type : HeaderType
  type : MemoryBlockType
deriving DecidableEq

/-- `header_type_to_size` — byte size of each allocation-header flavor. -/
def header_type_to_size : HeaderType → Nat
  | HEADER_LEGACY => 64
  | HEADER_COMPACT => ALLOC_HDR_COMPACT_SIZE
  | HEADER_NONE => 0

/-- `header_type_to_flag` — chunk flag bit of each header flavor. -/
def header_type_to_flag : HeaderType → Nat
  | HEADER_LEGACY => 0
  | HEADER_COMPACT => CHUNK_FLAG_COMPACT_HEADER
  | HEADER_NONE => CHUNK_FLAG_HEADER_NONE

/-! ## Chunk-header packing

A chunk header is 64 bits: `type` (16 bits), `flags` (16 bits),
`size_idx` (32 bits), packed little-endian; a header value is modelled by
the packed 64-bit integer. -/

/-- `chunk_get_chunk_hdr_value(type, flags, size_idx)` — the 64-bit image
of a chunk header (the `memcpy` of the packed struct). -/
def chunk_get_chunk_hdr_value (type flags size_idx : Nat) : Nat :=
  type % 2 ^ 16 + flags % 2 ^ 16 * 2 ^ 16 + size_idx % 2 ^ 32 * 2 ^ 32

/-- The `type` field of a packed chunk-header value. -/
def hdrType (v : Nat) : Nat := v % 2 ^ 16

/-- The `flags` field of a packed chunk-header value. -/
def hdrFlags (v : Nat) : Nat := v / 2 ^ 16 % 2 ^ 16

/-- The `size_idx` field of a packed chunk-header value. -/
def hdrSizeIdx (v : Nat) : Nat := v / 2 ^ 32 % 2 ^ 32

/-- `memblock_header_type` — derives the header flavor from the chunk
header's flags: compact flag wins, then header-none, else legacy.  The C
function reads the header through `heap_get_chunk_hdr`; here it takes the
packed header value it reads. -/
def memblock_header_type (hdrVal : Nat) : HeaderType :=
  if hdrFlags hdrVal &&& CHUNK_FLAG_COMPACT_HEADER ≠ 0 then HEADER_COMPACT
  else if hdrFlags hdrVal &&& CHUNK_FLAG_HEADER_NONE ≠ 0 then HEADER_NONE
  else HEADER_LEGACY

/-! ## Run bitmap operations (`run_prep_operation_hdr`, `run_get_state`) -/

/-- A redo-log entry produced by `run_prep_operation_hdr`; it targets the
run-bitmap word `&r->bitmap[bpos]`. -/
structure RunBitmapEntry where
  bpos : Nat
  value : Nat
  op : RedoOperation
deriving DecidableEq

/-- `run_prep_operation_hdr(m, op, ctx)` — appends to the redo-log
context the single OR/AND entry that flips the block's bits in the
bitmap word `block_off / BITS_PER_VALUE`.  The context is modelled as the
ordered list of its entries; `operation_add_entry` appends.  The debug
ASSERTs (`size_idx <= BITS_PER_VALUE`, word-aligned full-word blocks, op
is ALLOCATED or FREE) do not change the computation; on any other `op`
the release build falls through without appending. -/
def run_prep_operation_hdr (m : MemoryBlock) (op : MemblockState)
    (ctx : List RunBitmapEntry) : List RunBitmapEntry :=
  let bmask : Nat :=
    if m.size_idx = BITS_PER_VALUE then UINT64_MAX
    else (((1 <<< m.size_idx) - 1) <<< (m.block_off % BITS_PER_VALUE)) % 2 ^ 64
  let bpos := m.block_off / BITS_PER_VALUE
  if op = MEMBLOCK_ALLOCATED then
    ctx ++ [⟨bpos, bmask, REDO_OPERATION_OR⟩]
  else if op = MEMBLOCK_FREE then
    ctx ++ [⟨bpos, bmask ^^^ UINT64_MAX, REDO_OPERATION_AND⟩]
  else ctx

/-- Modelled from the spec: replaying one redo-log entry against the
64-bit word it targets (`SET` stores the value, `AND`/`OR` combine). -/
def run_entry_apply (e : RunBitmapEntry) (w : Nat) : Nat :=
  match e.op with
  | REDO_OPERATION_SET => e.value
  | REDO_OPERATION_AND => w &&& e.value
  | REDO_OPERATION_OR => w ||| e.value

/-- The body of `run_get_state`'s loop, structurally recursive on the
remaining trip count `n = b_last - i`: scan bits `i, i+1, ...`; any set
bit means the block is allocated (`BIT_IS_CLR(bitmap, i)` is
`(bitmap & (1 << i)) == 0`). -/
def run_state_scan_go (bitmap : Nat) : Nat → Nat → MemblockState
  | _, 0 => MEMBLOCK_FREE
  | i, n + 1 =>
    if bitmap &&& (1 <<< i) ≠ 0 then MEMBLOCK_ALLOCATED
    else run_state_scan_go bitmap (i + 1) n

/-- The loop of `run_get_state`: scan bits `i, i+1, ..., b_last - 1` of
the bitmap word (`for (unsigned i = b; i < b_last; ++i)`). -/
def run_state_scan (bitmap i b_last : Nat) : MemblockState :=
  run_state_scan_go bitmap i (b_last - i)

/-- `run_get_state(m)` — reads the bitmap word `block_off /
BITS_PER_VALUE` of the run and scans the block's bit range.  The run's
bitmap array is modelled as the map from word index to word value. -/
def run_get_state (bitmapWords : Nat → Nat) (m : MemoryBlock) : MemblockState :=
  let v := m.block_off / BITS_PER_VALUE
  let bitmap := bitmapWords v
  let b := m.block_off % BITS_PER_VALUE
  let b_last := b + m.size_idx
  run_state_scan bitmap b b_last


/-! ## Huge-chunk header operations
(`huge_prep_operation_hdr`, `huge_ensure_header_type`) -/

/-- A redo-log entry produced by `huge_prep_operation_hdr`; it targets
the chunk-header slot `idx` of the zone.  `operation_add_entry` appends a
`LOG_PERSISTENT` entry, `operation_add_typed_entry` appends with the
given kind. -/
structure ChunkHdrEntry where
  idx : Nat
  value : Nat
  op : RedoOperation
  kind : LogType
deriving DecidableEq

/-- One primitive action of `huge_prep_operation_hdr`, in program order:
a relaxed 8-byte store to a chunk-header slot
(`util_atomic_store_explicit64`), a `pmemops_persist` of a slot, or an
append to the redo-log context. -/
inductive HugeHdrEvent where
  | store_hdr (idx : Nat) (value : Nat)
  | persist_hdr (idx : Nat)
  | add_entry (e : ChunkHdrEntry)
deriving DecidableEq

/-- Result of `huge_prep_operation_hdr`: the zone's chunk-header slots
(map from slot index to packed 64-bit value) after the call, the
redo-log context after the call (`none` models `ctx == NULL`), and the
ordered trace of the primitive actions the call performed. -/
structure HugePrepResult where
  headers : Nat → Nat
  ctx : Option (List ChunkHdrEntry)
  trace : List HugeHdrEvent

/-- `huge_prep_operation_hdr(m, op, ctx)` — computes the new packed
header value (`USED` or `FREE` by `op`, preserved flags, the block's
`size_idx`); stores and persists it when `ctx == NULL`, else appends a
persistent `SET` entry; then, for `size_idx > 1`, writes the footer slot
`chunk_id + size_idx - 1` with `(FOOTER, 0, size_idx)` — a plain store
when `ctx == NULL` (not persisted), else a transient `SET` entry. -/
def huge_prep_operation_hdr (headers : Nat → Nat) (m : MemoryBlock)
    (op : MemblockState) (ctx : Option (List ChunkHdrEntry)) : HugePrepResult :=
  let hdr := headers m.chunk_id
  let val := chunk_get_chunk_hdr_value
    (if op = MEMBLOCK_ALLOCATED then CHUNK_TYPE_USED else CHUNK_TYPE_FREE)
    (hdrFlags hdr) m.size_idx
  match ctx with
  | none =>
    let headers1 := Function.update headers m.chunk_id val
    let trace1 : List HugeHdrEvent :=
      [HugeHdrEvent.store_hdr m.chunk_id val, HugeHdrEvent.persist_hdr m.chunk_id]
    if m.size_idx = 1 then ⟨headers1, none, trace1⟩
    else
      let fidx := m.chunk_id + m.size_idx - 1
      let fval := chunk_get_chunk_hdr_value CHUNK_TYPE_FOOTER 0 m.size_idx
      ⟨Function.update headers1 fidx fval, none,
        trace1 ++ [HugeHdrEvent.store_hdr fidx fval]⟩
  | some es =>
    let e1 : ChunkHdrEntry := ⟨m.chunk_id, val, REDO_OPERATION_SET, LOG_PERSISTENT⟩
    let trace1 : List HugeHdrEvent := [HugeHdrEvent.add_entry e1]
    if m.size_idx = 1 then ⟨headers, some (es ++ [e1]), trace1⟩
    else
      let fidx := m.chunk_id + m.size_idx - 1
      let fval := chunk_get_chunk_hdr_value CHUNK_TYPE_FOOTER 0 m.size_idx
      let e2 : ChunkHdrEntry := ⟨fidx, fval, REDO_OPERATION_SET, LOG_TRANSIENT⟩
      ⟨headers, some (es ++ [e1, e2]), trace1 ++ [HugeHdrEvent.add_entry e2]⟩

/-- Modelled from the spec: replaying one redo-log entry against the
64-bit word it targets (`SET` stores the value, `AND`/`OR` combine). -/
def chunk_entry_apply (w : Nat) (e : ChunkHdrEntry) : Nat :=
  match e.op with
  | REDO_OPERATION_SET => e.value
  | REDO_OPERATION_AND => w &&& e.value
  | REDO_OPERATION_OR => w ||| e.value

/-- Modelled from the spec: committing a redo-log context replays its
entries in order against the chunk-header slots (the operation-context
machinery is an external collaborator; the subsystem relies on entry
order within a context being preserved). -/
def operation_process (headers : Nat → Nat) (es : List ChunkHdrEntry) : Nat → Nat :=
  es.foldl (fun h e => Function.update h e.idx (chunk_entry_apply (h e.idx) e)) headers

/-- The chunk-header slots after `huge_prep_operation_hdr` and — when a
context was supplied — after that context's commit. -/
def huge_prep_commit (headers : Nat → Nat) (m : MemoryBlock)
    (op : MemblockState) (ctx : Option (List ChunkHdrEntry)) : Nat → Nat :=
  let r := huge_prep_operation_hdr headers m op ctx
  match r.ctx with
  | none => r.headers
  | some es => operation_process r.headers es

/-- Overwriting the 16-bit `flags` field of a packed chunk-header value
(the C code mutates `hdr->flags` in place; on a value `< 2 ^ 64` this
repacking is exactly that field mutation). -/
def chunk_hdr_set_flags (v f : Nat) : Nat :=
  hdrType v + f % 2 ^ 16 * 2 ^ 16 + hdrSizeIdx v * 2 ^ 32

/-- `huge_ensure_header_type(m, t)` — if the chunk header does not yet
carry the flag bit of flavor `t`, ORs it into `hdr->flags` and persists
the 8-byte header; otherwise leaves the header untouched.  Takes and
returns the packed header value. -/
def huge_ensure_header_type (hdrVal : Nat) (t : HeaderType) : Nat :=
  if hdrFlags hdrVal &&& header_type_to_flag t = 0 then
    chunk_hdr_set_flags hdrVal (hdrFlags hdrVal ||| header_type_to_flag t)
  else hdrVal

/-! ## Allocation-header flavors (compact header) -/

/-- `struct allocation_header_compact` — two 64-bit words: word 0 packs
size (low `ALLOC_HDR_SIZE_SHIFT` bits) and flags (high 16 bits), word 1
is the extra field. -/
structure AllocationHeaderCompact where
  size : Nat
  extra : Nat
deriving DecidableEq

/-- The header fields written by `memblock_header_compact_write`:
`hdr.size = size | ((uint64_t)flags << ALLOC_HDR_SIZE_SHIFT)`,
`hdr.extra = extra`. -/
def memblock_header_compact_write (size extra flags : Nat) : AllocationHeaderCompact :=
  { size := size % 2 ^ 64 ||| (flags % 2 ^ 16) <<< ALLOC_HDR_SIZE_SHIFT
    extra := extra % 2 ^ 64 }

/-- `memblock_header_compact_get_size` — the low size bits of word 0
(`hdr->size & ALLOC_HDR_FLAGS_MASK`). -/
def memblock_header_compact_get_size (hdr : AllocationHeaderCompact) : Nat :=
  hdr.size &&& ALLOC_HDR_FLAGS_MASK

/-- `memblock_header_compact_get_extra` — word 1. -/
def memblock_header_compact_get_extra (hdr : AllocationHeaderCompact) : Nat :=
  hdr.extra

/-- `memblock_header_compact_get_flags` — the high 16 bits of word 0
(`(uint16_t)(hdr->size >> ALLOC_HDR_SIZE_SHIFT)`). -/
def memblock_header_compact_get_flags (hdr : AllocationHeaderCompact) : Nat :=
  (hdr.size >>> ALLOC_HDR_SIZE_SHIFT) % 2 ^ 16

/-- The extent of the `pmemops_memcpy` issued by
`memblock_header_compact_write`, as the ordered list of 8-byte words it
stores at the header address.  The local `padded` struct's trailing
`padding` array (48 bytes, six words) is never initialized by the C
code, so its contents enter the model as the arbitrary parameter
`padding`.  The copy covers `sizeof(padded)` = `CACHELINE_SIZE` bytes
exactly when the header address is cacheline-aligned and
`size >= sizeof(padded)`; otherwise it covers the 16 header bytes. -/
def memblock_header_compact_write_words (hdrp_addr size extra flags : Nat)
    (padding : Fin 6 → Nat) : List Nat :=
  let hdr := memblock_header_compact_write size extra flags
  if hdrp_addr % CACHELINE_SIZE = 0 ∧ CACHELINE_SIZE ≤ size then
    [hdr.size, hdr.extra] ++ List.ofFn padding
  else
    [hdr.size, hdr.extra]

/-! ## Generic block size operations -/

/-- The persistent data `block_get_real_size` and the header-flavor
`get_size` read for one block: the run's `block_size` field (used when
the block is a run block) and the two 64-bit words at the block's real
data address (the inline allocation header, when there is one). -/
structure BlockEnv where
  run_block_size : Nat
  word0 : Nat
  word1 : Nat

/-- `m->m_ops->block_size(m)` — `CHUNKSIZE` for huge blocks
(`huge_block_size`), the run's `block_size` field for run blocks
(`run_block_size`). -/
def memblock_block_size (m : MemoryBlock) (env : BlockEnv) : Nat :=
  match m.type with
  | MEMORY_BLOCK_HUGE => CHUNKSIZE
  | MEMORY_BLOCK_RUN => env.run_block_size

/-- `memblock_header_ops[m->header_type].get_size(m)` — reads the first
word of the legacy header (`hdr->size`), the masked first word of the
compact header, or falls back to the block's unit size for header-none
blocks. -/
def memblock_header_get_size (m : MemoryBlock) (env : BlockEnv) : Nat :=
  match m.header_type with
  | HEADER_LEGACY => env.word0
  | HEADER_COMPACT => env.word0 &&& ALLOC_HDR_FLAGS_MASK
  | HEADER_NONE => memblock_block_size m env

/-- `block_get_real_size(m)` — unit size times `size_idx` when the size
index is set, otherwise the header flavor's stored size. -/
def block_get_real_size (m : MemoryBlock) (env : BlockEnv) : Nat :=
  if m.size_idx ≠ 0 then memblock_block_size m env * m.size_idx % 2 ^ 64
  else memblock_header_get_size m env

/-- `block_get_user_size(m)` — real size minus the header flavor's byte
size (`size_t` subtraction). -/
def block_get_user_size (m : MemoryBlock) (env : BlockEnv) : Nat :=
  sub64 (block_get_real_size m env) (header_type_to_size m.header_type)

/-! ## Offset resolution (`memblock_from_offset_opt`) -/

/-- `struct palloc_heap` as `memblock_from_offset_opt` consumes it: the
runtime base address of the mapped layout, the pool-relative offset of
`zone0` (`HEAP_PTR_TO_OFF(heap, &heap->layout->zone0)`), the packed
chunk-header slots per zone, the `block_size` and `alignment` fields of
the `chunk_run` occupying each chunk, and the 8-byte word stored at any
address (for allocation-header reads). -/
structure PallocHeap where
  base_addr : Nat
  zone0_off : Nat
  chunk_hdr : Nat → Nat → Nat
  run_block_size : Nat → Nat → Nat
  run_alignment : Nat → Nat → Nat
  mem_word : Nat → Nat

/-- The runtime address of chunk `chunk_id` of zone `zone_id`
(`heap_get_chunk`): zone metadata is followed by the dense chunk array. -/
def chunk_addr (h : PallocHeap) (zone_id chunk_id : Nat) : Nat :=
  h.base_addr + h.zone0_off + zone_id * ZONE_MAX_SIZE + SIZEOF_ZONE
    + chunk_id * CHUNKSIZE

/-- The runtime address of `run->data` for the run occupying a chunk:
the run's metadata block (`RUN_METASIZE` bytes) leads the chunk. -/
def run_data_addr (h : PallocHeap) (zone_id chunk_id : Nat) : Nat :=
  chunk_addr h zone_id chunk_id + RUN_METASIZE

/-- `run_get_data_start(hdr, run, htype)` — start of the allocations in
a run: when the chunk header carries `CHUNK_FLAG_ALIGNED`, the smallest
padding making `data + header_size` a multiple of `run->alignment` is
added; otherwise `&run->data` itself. -/
def run_get_data_start (hdrVal : Nat) (data_addr alignment : Nat)
    (htype : HeaderType) : Nat :=
  if hdrFlags hdrVal &&& CHUNK_FLAG_ALIGNED ≠ 0 then
    let hsize := header_type_to_size htype
    let base := add64 data_addr hsize
    sub64 (ALIGN_UP base alignment) hsize
  else data_addr

/-- `run_get_alignment_padding(hdr, run, htype)` — bytes of padding in
aligned runs: `data_start - &run->data`. -/
def run_get_alignment_padding (hdrVal : Nat) (data_addr alignment : Nat)
    (htype : HeaderType) : Nat :=
  sub64 (run_get_data_start hdrVal data_addr alignment htype) data_addr

/-- `memblock_detect_type` — maps the chunk type to the block kind;
`none` models the `FATAL` branch on an unknown chunk type. -/
def memblock_detect_type (hdrVal : Nat) : Option MemoryBlockType :=
  if hdrType hdrVal = CHUNK_TYPE_RUN ∨ hdrType hdrVal = CHUNK_TYPE_RUN_DATA then
    some MEMORY_BLOCK_RUN
  else if hdrType hdrVal = CHUNK_TYPE_FREE ∨ hdrType hdrVal = CHUNK_TYPE_USED
      ∨ hdrType hdrVal = CHUNK_TYPE_FOOTER then
    some MEMORY_BLOCK_HUGE
  else none

/-- Modelled from the spec: `CALC_SIZE_IDX(unit_size, size)` from
`memblock.h` — the size index is `ceil(size / unit_size)`, as a
`uint32_t`. -/
def CALC_SIZE_IDX (unit_size size : Nat) : Nat :=
  (size + unit_size - 1) / unit_size % 2 ^ 32

/-- The address `m->m_ops->get_real_data(m)` resolves to:
`huge_get_real_data` is the chunk's data start; `run_get_real_data` is
the run's (alignment-adjusted) data start — computed from a fresh
`heap_get_chunk_hdr` read — plus `block_size * block_off`. -/
def block_real_data_addr (h : PallocHeap) (zone_id chunk_id block_off : Nat)
    (mtype : MemoryBlockType) (htype : HeaderType) : Nat :=
  match mtype with
  | MEMORY_BLOCK_HUGE => chunk_addr h zone_id chunk_id
  | MEMORY_BLOCK_RUN =>
    add64 (run_get_data_start (h.chunk_hdr zone_id chunk_id)
        (run_data_addr h zone_id chunk_id) (h.run_alignment zone_id chunk_id) htype)
      (h.run_block_size zone_id chunk_id * block_off)

/-- `memblock_header_ops[htype].get_size(&m)` as invoked at the end of
`memblock_from_offset_opt`: the legacy and compact flavors read the
8-byte word at the block's real data address; header-none falls back to
the unit size. -/
def header_get_size_at (h : PallocHeap) (zone_id chunk_id block_off : Nat)
    (mtype : MemoryBlockType) (htype : HeaderType) (unit_size : Nat) : Nat :=
  match htype with
  | HEADER_LEGACY => h.mem_word (block_real_data_addr h zone_id chunk_id block_off mtype htype)
  | HEADER_COMPACT =>
    h.mem_word (block_real_data_addr h zone_id chunk_id block_off mtype htype)
      &&& ALLOC_HDR_FLAGS_MASK
  | HEADER_NONE => unit_size

/-- Result of `memblock_from_offset_opt`: the descriptor, the residual
value of `off` at the final `ASSERTeq(off, 0)`, and whether the
`ASSERTeq(memblock_detect_type(heap, &m), m.type)` check agreed. -/
structure FromOffsetResult where
  m : MemoryBlock
  residual : Nat
  type_agrees : Bool
deriving DecidableEq

/-- `memblock_from_offset_opt(heap, off, size)` — decomposes a heap
offset into a block descriptor.  The local `hdr` is read once, at the
initially computed `chunk_id`; when it is `RUN_DATA` the chunk id is
moved back by its `size_idx`, and the header-flavor derivation
(`memblock_header_type(&m)`) re-reads through the heap at the corrected
chunk id — but the alignment-padding computation for run blocks is
passed the original `hdr` local, i.e. the RUN_DATA slot's header. -/
def memblock_from_offset_opt (h : PallocHeap) (off0 : Nat) (size : Bool) :
    FromOffsetResult :=
  let off1 := sub64 off0 h.zone0_off
  let zone_id := off1 / ZONE_MAX_SIZE % 2 ^ 32
  let off2 := sub64 off1 (ZONE_MAX_SIZE * zone_id + SIZEOF_ZONE)
  let chunk_id0 := off2 / CHUNKSIZE % 2 ^ 32
  let hdr := h.chunk_hdr zone_id chunk_id0
  let chunk_id := if hdrType hdr = CHUNK_TYPE_RUN_DATA
    then sub32 chunk_id0 (hdrSizeIdx hdr) else chunk_id0
  let off3 := sub64 off2 (CHUNKSIZE * chunk_id)
  let htype := memblock_header_type (h.chunk_hdr zone_id chunk_id)
  let off4 := sub64 off3 (header_type_to_size htype)
  let mtype := if off4 ≠ 0 then MEMORY_BLOCK_RUN else MEMORY_BLOCK_HUGE
  let agrees := memblock_detect_type (h.chunk_hdr zone_id chunk_id) = some mtype
  let unit_size := match mtype with
    | MEMORY_BLOCK_HUGE => CHUNKSIZE
    | MEMORY_BLOCK_RUN => h.run_block_size zone_id chunk_id
  let resRun : Nat × Nat := match mtype with
    | MEMORY_BLOCK_HUGE => (0, off4)
    | MEMORY_BLOCK_RUN =>
      let padding := run_get_alignment_padding hdr (run_data_addr h zone_id chunk_id)
        (h.run_alignment zone_id chunk_id) htype
      let off5 := sub64 off4 padding
      let off6 := sub64 off5 RUN_METASIZE
      let block_off := off6 / unit_size % 2 ^ 16
      (block_off, sub64 off6 (block_off * unit_size))
  let size_idx := if size
    then CALC_SIZE_IDX unit_size
      (header_get_size_at h zone_id chunk_id resRun.1 mtype htype unit_size)
    else 0
  { m := { chunk_id := chunk_id, zone_id := zone_id, size_idx := size_idx,
           block_off := resRun.1, header_type := htype, type := mtype }
    residual := resRun.2
    type_agrees := decide agrees }

/-- The variant described by the specification ("correct
`chunk_id -= hdr.size_idx` ... and re-read the header"): identical to
`memblock_from_offset_opt` except that the alignment-padding computation
for run blocks uses the re-read chunk header at the corrected chunk id
(the owning RUN chunk's header) instead of the stale `hdr` local. -/
def memblock_from_offset_opt_reread (h : PallocHeap) (off0 : Nat) (size : Bool) :
    FromOffsetResult :=
  let off1 := sub64 off0 h.zone0_off
  let zone_id := off1 / ZONE_MAX_SIZE % 2 ^ 32
  let off2 := sub64 off1 (ZONE_MAX_SIZE * zone_id + SIZEOF_ZONE)
  let chunk_id0 := off2 / CHUNKSIZE % 2 ^ 32
  let hdr := h.chunk_hdr zone_id chunk_id0
  let chunk_id := if hdrType hdr = CHUNK_TYPE_RUN_DATA
    then sub32 chunk_id0 (hdrSizeIdx hdr) else chunk_id0
  let off3 := sub64 off2 (CHUNKSIZE * chunk_id)
  let htype := memblock_header_type (h.chunk_hdr zone_id chunk_id)
  let off4 := sub64 off3 (header_type_to_size htype)
  let mtype := if off4 ≠ 0 then MEMORY_BLOCK_RUN else MEMORY_BLOCK_HUGE
  let agrees := memblock_detect_type (h.chunk_hdr zone_id chunk_id) = some mtype
  let unit_size := match mtype with
    | MEMORY_BLOCK_HUGE => CHUNKSIZE
    | MEMORY_BLOCK_RUN => h.run_block_size zone_id chunk_id
  let resRun : Nat × Nat := match mtype with
    | MEMORY_BLOCK_HUGE => (0, off4)
    | MEMORY_BLOCK_RUN =>
      let padding := run_get_alignment_padding (h.chunk_hdr zone_id chunk_id)
        (run_data_addr h zone_id chunk_id) (h.run_alignment zone_id chunk_id) htype
      let off5 := sub64 off4 padding
      let off6 := sub64 off5 RUN_METASIZE
      let block_off := off6 / unit_size % 2 ^ 16
      (block_off, sub64 off6 (block_off * unit_size))
  let size_idx := if size
    then CALC_SIZE_IDX unit_size
      (header_get_size_at h zone_id chunk_id resRun.1 mtype htype unit_size)
    else 0
  { m := { chunk_id := chunk_id, zone_id := zone_id, size_idx := size_idx,
           block_off := resRun.1, header_type := htype, type := mtype }
    residual := resRun.2
    type_agrees := decide agrees }

/-- A well-formed heap exercising the stale-header path: chunk 0 of zone
0 is an ALIGNED, header-none RUN spanning two chunks (`size_idx = 2`);
chunk 1 is its RUN_DATA slot (back-reference 1, flags 0).  The run has
`block_size = 96` and `alignment = 4096`; `&run->data` sits at address
526336, so the aligned data start is 528384 (padding 2048). -/
def stale_hdr_heap : PallocHeap where
  base_addr := 0
  zone0_off := 0
  chunk_hdr := fun z c =>
    if z = 0 ∧ c = 0 then
      chunk_get_chunk_hdr_value CHUNK_TYPE_RUN
        (CHUNK_FLAG_ALIGNED ||| CHUNK_FLAG_HEADER_NONE) 2
    else if z = 0 ∧ c = 1 then
      chunk_get_chunk_hdr_value CHUNK_TYPE_RUN_DATA 0 1
    else chunk_get_chunk_hdr_value CHUNK_TYPE_FREE 0 1
  run_block_size := fun _ _ => 96
  run_alignment := fun _ _ => 4096
  mem_word := fun _ => 0

/-- The offset of a block legitimately allocated in that run: unit 2688,
whose data lies at `RUN_METASIZE + padding + 2688 * 96 = 262144` bytes
into chunk 0, i.e. inside the RUN_DATA chunk 1. -/
def stale_hdr_off : Nat := SIZEOF_ZONE + CHUNKSIZE


/-! ## Helper lemmas -/

theorem and_one_shl_ne_zero (a i : Nat) : a &&& (1 <<< i) ≠ 0 ↔ a.testBit i = true := by
  have hpow : (1 : Nat) <<< i = 2 ^ i := by rw [Nat.shiftLeft_eq, Nat.one_mul]
  rw [hpow]
  constructor
  · intro hne
    by_contra hbit
    apply hne
    apply Nat.zero_of_testBit_eq_false
    intro j
    rw [Nat.testBit_and, Nat.testBit_two_pow]
    by_cases hij : i = j
    · subst hij
      simp only [Bool.eq_true_eq_not_eq_false] at hbit
      simp [hbit]
    · simp [hij]
  · intro hbit hzero
    have : (a &&& 2 ^ i).testBit i = true := by
      rw [Nat.testBit_and, Nat.testBit_two_pow, hbit]
      simp
    rw [hzero] at this
    simp [Nat.zero_testBit] at this

theorem run_bmask_testBit (s b i : Nat) (h : b + s ≤ 64) :
    ((((1 <<< s) - 1) <<< b) % 2 ^ 64).testBit i
      = (decide (b ≤ i) && decide (i < b + s)) := by
  have hone : (1 : Nat) <<< s = 2 ^ s := by rw [Nat.shiftLeft_eq, Nat.one_mul]
  have hval : ((2 ^ s - 1) <<< b) = (2 ^ s - 1) * 2 ^ b := Nat.shiftLeft_eq _ b
  have hlt : (2 ^ s - 1) * 2 ^ b < 2 ^ 64 := by
    calc (2 ^ s - 1) * 2 ^ b < 2 ^ s * 2 ^ b := by
          have : (0 : Nat) < 2 ^ s := Nat.pos_pow_of_pos s (by decide)
          have h2 : (0 : Nat) < 2 ^ b := Nat.pos_pow_of_pos b (by decide)
          exact Nat.mul_lt_mul_of_lt_of_le (by omega) (Nat.le_refl _) h2
      _ = 2 ^ (s + b) := by rw [Nat.pow_add]
      _ ≤ 2 ^ 64 := Nat.pow_le_pow_right (by decide) (by omega)
  rw [hone, Nat.mod_eq_of_lt (by rw [hval]; exact hlt), Nat.testBit_shiftLeft]
  by_cases hbi : b ≤ i
  · have h1 : decide (i ≥ b) = true := by simp [ge_iff_le, hbi]
    rw [h1, Bool.true_and, Bool.true_and, Nat.testBit_two_pow_sub_one]
    exact decide_eq_decide.mpr (by omega)
  · have h1 : decide (i ≥ b) = false := by simp [ge_iff_le, hbi]
    rw [h1, Bool.false_and, Bool.false_and]

theorem sub64_of_le (a b : Nat) (h1 : b ≤ a) (h2 : a < 2 ^ 64) : sub64 a b = a - b := by
  unfold sub64
  omega

/-! ## Claim theorems -/

/-- Claim C1: for a run block descriptor with `size_idx ≤ 64` (and
word-aligned `block_off` when `size_idx = 64`), `run_prep_operation_hdr`
appends exactly one entry to the redo-log context: for `ALLOCATED` the
entry `(bitmap word block_off / 64, bmask, OR)` and for `FREE` the entry
`(that word, ~bmask, AND)`, where `bmask` is `UINT64_MAX` when
`size_idx = 64` and `((1 << size_idx) - 1) << (block_off % 64)` (64-bit
arithmetic) otherwise. -/
theorem run_prep_operation_hdr_single_entry
    (m : MemoryBlock) (ctx : List RunBitmapEntry)
    (h64 : m.size_idx ≤ 64)
    (hword : m.size_idx = 64 → m.block_off % 64 = 0) :
    run_prep_operation_hdr m MEMBLOCK_ALLOCATED ctx =
      ctx ++ [⟨m.block_off / 64,
        if m.size_idx = 64 then UINT64_MAX
        else (((1 <<< m.size_idx) - 1) <<< (m.block_off % 64)) % 2 ^ 64,
        REDO_OPERATION_OR⟩] ∧
    run_prep_operation_hdr m MEMBLOCK_FREE ctx =
      ctx ++ [⟨m.block_off / 64,
        (if m.size_idx = 64 then UINT64_MAX
         else (((1 <<< m.size_idx) - 1) <<< (m.block_off % 64)) % 2 ^ 64) ^^^ UINT64_MAX,
        REDO_OPERATION_AND⟩] :=
  ⟨rfl, rfl⟩

/-- Witness for C1: a three-bit block at offset 6 yields the single OR
entry with mask `0b111 << 6 = 448` and the single AND entry with its
complement. -/
theorem run_prep_operation_hdr_single_entry_witness :
    ((3 : Nat) ≤ 64 ∧ ((3 : Nat) = 64 → (6 : Nat) % 64 = 0)) ∧
    run_prep_operation_hdr ⟨2, 0, 3, 6, HEADER_COMPACT, MEMORY_BLOCK_RUN⟩
        MEMBLOCK_ALLOCATED [] = [⟨0, 448, REDO_OPERATION_OR⟩] ∧
    run_prep_operation_hdr ⟨2, 0, 3, 6, HEADER_COMPACT, MEMORY_BLOCK_RUN⟩
        MEMBLOCK_FREE [] = [⟨0, 448 ^^^ UINT64_MAX, REDO_OPERATION_AND⟩] := by
  refine ⟨⟨by decide, by decide⟩, ?_, ?_⟩
  · exact ((run_prep_operation_hdr_single_entry
      ⟨2, 0, 3, 6, HEADER_COMPACT, MEMORY_BLOCK_RUN⟩ [] (by decide) (by decide)).1).trans
      (by decide)
  · exact ((run_prep_operation_hdr_single_entry
      ⟨2, 0, 3, 6, HEADER_COMPACT, MEMORY_BLOCK_RUN⟩ [] (by decide) (by decide)).2).trans
      (by decide)

/-- Claim C10: the single redo-log entry `run_prep_operation_hdr`
appends for a block with `block_off % 64 + size_idx ≤ 64` targets only
bitmap word `block_off / 64`, and applying it to that word changes no
bit outside `[block_off % 64, block_off % 64 + size_idx)`. -/
theorem run_prep_entry_frame_property
    (m : MemoryBlock) (op : MemblockState) (ctx : List RunBitmapEntry)
    (hrange : m.block_off % 64 + m.size_idx ≤ 64)
    (hop : op = MEMBLOCK_ALLOCATED ∨ op = MEMBLOCK_FREE) :
    ∃ e : RunBitmapEntry,
      run_prep_operation_hdr m op ctx = ctx ++ [e] ∧
      e.bpos = m.block_off / 64 ∧
      ∀ w i, i < 64 →
        (i < m.block_off % 64 ∨ m.block_off % 64 + m.size_idx ≤ i) →
        (run_entry_apply e w).testBit i = w.testBit i := by
  have hmask : ∀ i, i < 64 →
      (i < m.block_off % 64 ∨ m.block_off % 64 + m.size_idx ≤ i) →
      (if m.size_idx = BITS_PER_VALUE then UINT64_MAX
       else (((1 <<< m.size_idx) - 1) <<< (m.block_off % BITS_PER_VALUE)) % 2 ^ 64).testBit i
        = false := by
    intro i h64 hout
    by_cases hfull : m.size_idx = BITS_PER_VALUE
    · exfalso
      have : m.block_off % 64 = 0 := by
        unfold BITS_PER_VALUE at hfull
        omega
      unfold BITS_PER_VALUE at hfull
      omega
    · rw [if_neg hfull]
      unfold BITS_PER_VALUE
      rw [run_bmask_testBit _ _ _ hrange]
      rcases hout with hlo | hhi
      · simp [Nat.not_le_of_lt hlo]
      · have : ¬ i < m.block_off % 64 + m.size_idx := by omega
        simp [this]
  rcases hop with rfl | rfl
  · refine ⟨⟨m.block_off / BITS_PER_VALUE,
      if m.size_idx = BITS_PER_VALUE then UINT64_MAX
      else (((1 <<< m.size_idx) - 1) <<< (m.block_off % BITS_PER_VALUE)) % 2 ^ 64,
      REDO_OPERATION_OR⟩, rfl, rfl, ?_⟩
    intro w i h64 hout
    show (w ||| _).testBit i = w.testBit i
    rw [Nat.testBit_or, hmask i h64 hout, Bool.or_false]
  · refine ⟨⟨m.block_off / BITS_PER_VALUE,
      (if m.size_idx = BITS_PER_VALUE then UINT64_MAX
       else (((1 <<< m.size_idx) - 1) <<< (m.block_off % BITS_PER_VALUE)) % 2 ^ 64)
        ^^^ UINT64_MAX,
      REDO_OPERATION_AND⟩, rfl, rfl, ?_⟩
    intro w i h64 hout
    show (w &&& _).testBit i = w.testBit i
    rw [Nat.testBit_and, Nat.testBit_xor, hmask i h64 hout]
    have hmax : UINT64_MAX.testBit i = true := by
      unfold UINT64_MAX
      rw [Nat.testBit_two_pow_sub_one]
      simp [h64]
    rw [hmax]
    cases w.testBit i <;> rfl

/-- Witness for C10: a one-bit block at offset 5, allocated. -/
theorem run_prep_entry_frame_property_witness :
    ((5 : Nat) % 64 + 1 ≤ 64 ∧
      (MEMBLOCK_ALLOCATED = MEMBLOCK_ALLOCATED ∨ MEMBLOCK_ALLOCATED = MEMBLOCK_FREE)) ∧
    ∃ e : RunBitmapEntry,
      run_prep_operation_hdr ⟨0, 0, 1, 5, HEADER_NONE, MEMORY_BLOCK_RUN⟩
          MEMBLOCK_ALLOCATED [] = [] ++ [e] ∧
      e.bpos = 5 / 64 ∧
      ∀ w i, i < 64 → (i < 5 % 64 ∨ 5 % 64 + 1 ≤ i) →
        (run_entry_apply e w).testBit i = w.testBit i :=
  ⟨⟨by decide, Or.inl rfl⟩,
    run_prep_entry_frame_property ⟨0, 0, 1, 5, HEADER_NONE, MEMORY_BLOCK_RUN⟩
      MEMBLOCK_ALLOCATED [] (by decide) (Or.inl rfl)⟩

theorem run_state_scan_go_free_iff (bitmap : Nat) :
    ∀ n i, run_state_scan_go bitmap i n = MEMBLOCK_FREE ↔
      ∀ j, i ≤ j → j < i + n → bitmap.testBit j = false := by
  intro n
  induction n with
  | zero =>
    intro i
    constructor
    · intro _ j hj1 hj2
      omega
    · intro _
      rfl
  | succ n ih =>
    intro i
    simp only [run_state_scan_go]
    cases hb : bitmap.testBit i with
    | true =>
      rw [if_pos ((and_one_shl_ne_zero bitmap i).mpr hb)]
      constructor
      · intro habs
        exact absurd habs (by decide)
      · intro hall
        have hx := hall i (Nat.le_refl i) (by omega)
        rw [hb] at hx
        exact absurd hx (by decide)
    | false =>
      have hne : ¬ bitmap &&& (1 <<< i) ≠ 0 := by
        intro hc
        rw [(and_one_shl_ne_zero bitmap i).mp hc] at hb
        exact absurd hb (by decide)
      rw [if_neg hne, ih (i + 1)]
      constructor
      · intro hrec j hj1 hj2
        rcases Nat.eq_or_lt_of_le hj1 with rfl | hlt
        · exact hb
        · exact hrec j hlt (by omega)
      · intro hall j hj1 hj2
        exact hall j (by omega) (by omega)

theorem run_state_scan_go_ne_unknown (bitmap : Nat) :
    ∀ n i, run_state_scan_go bitmap i n ≠ MEMBLOCK_STATE_UNKNOWN := by
  intro n
  induction n with
  | zero =>
    intro i
    simp only [run_state_scan_go]
    decide
  | succ n ih =>
    intro i
    simp only [run_state_scan_go]
    by_cases hc : bitmap &&& (1 <<< i) ≠ 0
    · rw [if_pos hc]
      decide
    · rw [if_neg hc]
      exact ih (i + 1)

/-- Claim C3: for a run block whose bit range stays inside one bitmap
word (`block_off % 64 + size_idx ≤ 64`), `run_get_state` returns `FREE`
iff every bit of bitmap word `block_off / 64` in
`[block_off % 64, block_off % 64 + size_idx)` is clear, and `ALLOCATED`
iff at least one of those bits is set (set bit = allocated). -/
theorem run_get_state_bitmap_inversion (bw : Nat → Nat) (m : MemoryBlock)
    (h : m.block_off % 64 + m.size_idx ≤ 64) :
    (run_get_state bw m = MEMBLOCK_FREE ↔
      ∀ i, m.block_off % 64 ≤ i → i < m.block_off % 64 + m.size_idx →
        (bw (m.block_off / 64)).testBit i = false) ∧
    (run_get_state bw m = MEMBLOCK_ALLOCATED ↔
      ∃ i, m.block_off % 64 ≤ i ∧ i < m.block_off % 64 + m.size_idx ∧
        (bw (m.block_off / 64)).testBit i = true) := by
  have hrw : run_get_state bw m
      = run_state_scan_go (bw (m.block_off / 64)) (m.block_off % 64) m.size_idx := by
    show run_state_scan_go (bw (m.block_off / BITS_PER_VALUE)) (m.block_off % BITS_PER_VALUE)
        (m.block_off % BITS_PER_VALUE + m.size_idx - m.block_off % BITS_PER_VALUE)
      = run_state_scan_go (bw (m.block_off / 64)) (m.block_off % 64) m.size_idx
    rw [Nat.add_sub_cancel_left]
    rfl
  constructor
  · rw [hrw]
    exact run_state_scan_go_free_iff _ _ _
  · rw [hrw]
    constructor
    · intro halloc
      by_contra hno
      push_neg at hno
      have hfree : run_state_scan_go (bw (m.block_off / 64))
          (m.block_off % 64) m.size_idx = MEMBLOCK_FREE := by
        rw [run_state_scan_go_free_iff]
        intro j hj1 hj2
        have hnj := hno j hj1 hj2
        cases hjb : (bw (m.block_off / 64)).testBit j with
        | false => rfl
        | true => exact absurd hjb hnj
      rw [halloc] at hfree
      exact absurd hfree (by decide)
    · rintro ⟨i, h1, h2, h3⟩
      have hne : run_state_scan_go (bw (m.block_off / 64))
          (m.block_off % 64) m.size_idx ≠ MEMBLOCK_FREE := by
        intro hfree
        have hx := (run_state_scan_go_free_iff _ _ _).mp hfree i h1 h2
        rw [h3] at hx
        exact absurd hx (by decide)
      have hnu := run_state_scan_go_ne_unknown (bw (m.block_off / 64))
        m.size_idx (m.block_off % 64)
      cases hcase : run_state_scan_go (bw (m.block_off / 64))
          (m.block_off % 64) m.size_idx with
      | MEMBLOCK_STATE_UNKNOWN => exact absurd hcase hnu
      | MEMBLOCK_ALLOCATED => rfl
      | MEMBLOCK_FREE => exact absurd hcase hne

/-- Witness for C3: with word 0 equal to `0x20`, the one-bit block at
offset 5 is allocated (bit 5 set). -/
theorem run_get_state_bitmap_inversion_witness :
    ((5 : Nat) % 64 + 1 ≤ 64) ∧
    (run_get_state (fun _ => 32) ⟨0, 0, 1, 5, HEADER_NONE, MEMORY_BLOCK_RUN⟩
        = MEMBLOCK_ALLOCATED ↔
      ∃ i, 5 % 64 ≤ i ∧ i < 5 % 64 + 1 ∧ ((32 : Nat).testBit i = true)) :=
  ⟨by decide,
    (run_get_state_bitmap_inversion (fun _ => 32)
      ⟨0, 0, 1, 5, HEADER_NONE, MEMORY_BLOCK_RUN⟩ (by decide)).2⟩

/-- Claim C2: for a huge block with `size_idx > 1`, after
`huge_prep_operation_hdr(m, ALLOCATED, ctx)` — and, when a redo-log
context was supplied, after that context's commit — the chunk-header
slot `chunk_id + size_idx - 1` holds the packed value
`(FOOTER, 0, size_idx)`. -/
theorem huge_prep_footer_invariant (headers : Nat → Nat) (m : MemoryBlock)
    (ctx : Option (List ChunkHdrEntry)) (h1 : 1 < m.size_idx) :
    huge_prep_commit headers m MEMBLOCK_ALLOCATED ctx (m.chunk_id + m.size_idx - 1)
      = chunk_get_chunk_hdr_value CHUNK_TYPE_FOOTER 0 m.size_idx := by
  have hne : ¬ m.size_idx = 1 := by omega
  cases ctx with
  | none =>
    unfold huge_prep_commit huge_prep_operation_hdr
    simp [hne, Function.update_same]
  | some es =>
    unfold huge_prep_commit huge_prep_operation_hdr operation_process
    simp only [hne, if_false, ite_false, List.foldl_append, List.foldl_cons, List.foldl_nil]
    simp [chunk_entry_apply, Function.update_same]

/-- Witness for C2: committing an `ALLOCATED` preparation of a 3-chunk
huge block at chunk 10 through a context leaves the footer packing at
slot 12. -/
theorem huge_prep_footer_invariant_witness :
    (1 : Nat) < 3 ∧
    huge_prep_commit (fun _ => 0) ⟨10, 0, 3, 0, HEADER_LEGACY, MEMORY_BLOCK_HUGE⟩
        MEMBLOCK_ALLOCATED (some []) (10 + 3 - 1)
      = chunk_get_chunk_hdr_value CHUNK_TYPE_FOOTER 0 3 :=
  ⟨by decide,
    huge_prep_footer_invariant (fun _ => 0) ⟨10, 0, 3, 0, HEADER_LEGACY, MEMORY_BLOCK_HUGE⟩
      (some []) (by decide)⟩

/-- Claim C5: for a huge block with `size_idx > 1`,
`huge_prep_operation_hdr` orders the head-header update strictly before
the footer write: with `ctx == NULL` the trace is exactly head store,
head persist, then footer store; with a context, the entry list gains
exactly the persistent head `SET` entry followed by the transient footer
`SET` entry. -/
theorem huge_prep_header_before_footer (headers : Nat → Nat) (m : MemoryBlock)
    (op : MemblockState) (h1 : 1 < m.size_idx) :
    (huge_prep_operation_hdr headers m op none).trace =
      [HugeHdrEvent.store_hdr m.chunk_id (chunk_get_chunk_hdr_value
          (if op = MEMBLOCK_ALLOCATED then CHUNK_TYPE_USED else CHUNK_TYPE_FREE)
          (hdrFlags (headers m.chunk_id)) m.size_idx),
       HugeHdrEvent.persist_hdr m.chunk_id,
       HugeHdrEvent.store_hdr (m.chunk_id + m.size_idx - 1)
         (chunk_get_chunk_hdr_value CHUNK_TYPE_FOOTER 0 m.size_idx)] ∧
    ∀ es : List ChunkHdrEntry,
      (huge_prep_operation_hdr headers m op (some es)).ctx =
        some (es ++
          [⟨m.chunk_id, chunk_get_chunk_hdr_value
              (if op = MEMBLOCK_ALLOCATED then CHUNK_TYPE_USED else CHUNK_TYPE_FREE)
              (hdrFlags (headers m.chunk_id)) m.size_idx,
            REDO_OPERATION_SET, LOG_PERSISTENT⟩,
           ⟨m.chunk_id + m.size_idx - 1,
            chunk_get_chunk_hdr_value CHUNK_TYPE_FOOTER 0 m.size_idx,
            REDO_OPERATION_SET, LOG_TRANSIENT⟩]) := by
  have hne : ¬ m.size_idx = 1 := by omega
  constructor
  · unfold huge_prep_operation_hdr
    simp [hne]
  · intro es
    unfold huge_prep_operation_hdr
    simp [hne]

/-- Witness for C5: a 3-chunk huge block at chunk 10 over all-zero
headers, freed through the direct path and through a context. -/
theorem huge_prep_header_before_footer_witness :
    (1 : Nat) < 3 ∧
    (huge_prep_operation_hdr (fun _ => 0) ⟨10, 0, 3, 0, HEADER_LEGACY, MEMORY_BLOCK_HUGE⟩
        MEMBLOCK_ALLOCATED none).trace =
      [HugeHdrEvent.store_hdr 10 (chunk_get_chunk_hdr_value
          (if MEMBLOCK_ALLOCATED = MEMBLOCK_ALLOCATED then CHUNK_TYPE_USED else CHUNK_TYPE_FREE)
          (hdrFlags 0) 3),
       HugeHdrEvent.persist_hdr 10,
       HugeHdrEvent.store_hdr (10 + 3 - 1) (chunk_get_chunk_hdr_value CHUNK_TYPE_FOOTER 0 3)] :=
  ⟨by decide,
    (huge_prep_header_before_footer (fun _ => 0)
      ⟨10, 0, 3, 0, HEADER_LEGACY, MEMORY_BLOCK_HUGE⟩ MEMBLOCK_ALLOCATED (by decide)).1⟩

theorem hdrFlags_set_flags (v f : Nat) :
    hdrFlags (chunk_hdr_set_flags v f) = f % 2 ^ 16 := by
  unfold hdrFlags chunk_hdr_set_flags hdrType hdrSizeIdx
  omega

theorem chunk_hdr_set_flags_self (v : Nat) (h : v < 2 ^ 64) :
    chunk_hdr_set_flags v (hdrFlags v) = v := by
  unfold chunk_hdr_set_flags hdrFlags hdrType hdrSizeIdx
  omega

theorem huge_ensure_header_type_of_present (v : Nat) (t : HeaderType)
    (h : hdrFlags v &&& header_type_to_flag t ≠ 0) :
    huge_ensure_header_type v t = v := by
  unfold huge_ensure_header_type
  rw [if_neg h]

theorem or_testBit_self (a : Nat) (k : Nat) (h : a.testBit k = true) :
    a ||| 2 ^ k = a := by
  apply Nat.eq_of_testBit_eq
  intro i
  rw [Nat.testBit_or, Nat.testBit_two_pow]
  by_cases hik : k = i
  · subst hik
    rw [h]
    rfl
  · simp [hik]

/-- Claim C9: for a huge block whose chunk header has type `FREE`,
`huge_ensure_header_type` is idempotent: the first call ORs the flavor's
flag bit into the header's flags, and every repeated call with the same
flavor leaves the 64-bit header bit-identical to its value after the
first call. -/
theorem huge_ensure_header_type_idempotent (hdrVal : Nat) (t : HeaderType)
    (hfree : hdrType hdrVal = CHUNK_TYPE_FREE) (hlt : hdrVal < 2 ^ 64) :
    hdrFlags (huge_ensure_header_type hdrVal t)
      = (hdrFlags hdrVal ||| header_type_to_flag t) ∧
    ∀ n : Nat, (fun v => huge_ensure_header_type v t)^[n + 1] hdrVal
      = huge_ensure_header_type hdrVal t := by
  have hflagslt : hdrFlags hdrVal < 2 ^ 16 := by
    unfold hdrFlags
    exact Nat.mod_lt _ (by decide)
  have hflaglt : header_type_to_flag t < 2 ^ 16 := by
    cases t <;> decide
  have horlt : hdrFlags hdrVal ||| header_type_to_flag t < 2 ^ 16 :=
    Nat.or_lt_two_pow hflagslt hflaglt
  have hfirst : hdrFlags (huge_ensure_header_type hdrVal t)
      = (hdrFlags hdrVal ||| header_type_to_flag t) := by
    unfold huge_ensure_header_type
    by_cases hc : hdrFlags hdrVal &&& header_type_to_flag t = 0
    · rw [if_pos hc, hdrFlags_set_flags]
      exact Nat.mod_eq_of_lt horlt
    · rw [if_neg hc]
      cases t with
      | HEADER_LEGACY =>
        exfalso
        exact hc (Nat.and_zero _)
      | HEADER_COMPACT =>
        have hb : hdrFlags hdrVal &&& 1 <<< 0 ≠ 0 := hc
        have := (and_one_shl_ne_zero (hdrFlags hdrVal) 0).mp hb
        exact (or_testBit_self (hdrFlags hdrVal) 0 this).symm
      | HEADER_NONE =>
        have hb : hdrFlags hdrVal &&& 1 <<< 1 ≠ 0 := hc
        have := (and_one_shl_ne_zero (hdrFlags hdrVal) 1).mp hb
        exact (or_testBit_self (hdrFlags hdrVal) 1 this).symm
  have hidem : huge_ensure_header_type (huge_ensure_header_type hdrVal t) t
      = huge_ensure_header_type hdrVal t := by
    by_cases hc2 : hdrFlags (huge_ensure_header_type hdrVal t) &&& header_type_to_flag t = 0
    · -- the flag is absent after the call: only possible for the legacy flavor
      cases t with
      | HEADER_LEGACY =>
        -- flag is 0, so the call rebuilds the header unchanged
        have hsame : huge_ensure_header_type hdrVal HEADER_LEGACY = hdrVal := by
          unfold huge_ensure_header_type
          have hz : hdrFlags hdrVal &&& header_type_to_flag HEADER_LEGACY = 0 :=
            Nat.and_zero _
          rw [if_pos hz]
          show chunk_hdr_set_flags hdrVal (hdrFlags hdrVal ||| 0) = hdrVal
          rw [Nat.or_zero]
          exact chunk_hdr_set_flags_self hdrVal hlt
        rw [hsame]
        exact hsame
      | HEADER_COMPACT =>
        exfalso
        rw [hfirst] at hc2
        have hbit : (hdrFlags hdrVal ||| 2 ^ 0).testBit 0 = true := by
          rw [Nat.testBit_or, Nat.testBit_two_pow]
          simp
        have : (hdrFlags hdrVal ||| 2 ^ 0) &&& 1 <<< 0 ≠ 0 :=
          (and_one_shl_ne_zero _ 0).mpr hbit
        exact this hc2
      | HEADER_NONE =>
        exfalso
        rw [hfirst] at hc2
        have hbit : (hdrFlags hdrVal ||| 2 ^ 1).testBit 1 = true := by
          rw [Nat.testBit_or, Nat.testBit_two_pow]
          simp
        have : (hdrFlags hdrVal ||| 2 ^ 1) &&& 1 <<< 1 ≠ 0 :=
          (and_one_shl_ne_zero _ 1).mpr hbit
        exact this hc2
    · exact huge_ensure_header_type_of_present _ t hc2
  refine ⟨hfirst, ?_⟩
  intro n
  induction n with
  | zero => rfl
  | succ k ih =>
    rw [Function.iterate_succ_apply', ih, hidem]

/-- Witness for C9: a FREE, flagless header of span 1 acquiring the
compact-header flag. -/
theorem huge_ensure_header_type_idempotent_witness :
    (hdrType (chunk_get_chunk_hdr_value CHUNK_TYPE_FREE 0 1) = CHUNK_TYPE_FREE ∧
      chunk_get_chunk_hdr_value CHUNK_TYPE_FREE 0 1 < 2 ^ 64) ∧
    hdrFlags (huge_ensure_header_type
        (chunk_get_chunk_hdr_value CHUNK_TYPE_FREE 0 1) HEADER_COMPACT)
      = (hdrFlags (chunk_get_chunk_hdr_value CHUNK_TYPE_FREE 0 1)
          ||| header_type_to_flag HEADER_COMPACT) :=
  ⟨⟨by decide, by decide⟩,
    (huge_ensure_header_type_idempotent (chunk_get_chunk_hdr_value CHUNK_TYPE_FREE 0 1)
      HEADER_COMPACT (by decide) (by decide)).1⟩

theorem or_shl_and_mask (size flags : Nat) (hs : size < 2 ^ 48) :
    (size ||| flags <<< 48) &&& (2 ^ 48 - 1) = size := by
  rw [Nat.and_pow_two_sub_one_eq_mod]
  apply Nat.eq_of_testBit_eq
  intro i
  rw [Nat.testBit_mod_two_pow, Nat.testBit_or, Nat.testBit_shiftLeft]
  by_cases hi : i < 48
  · have h1 : decide (i < 48) = true := by simp [hi]
    have h2 : decide (i ≥ 48) = false := by simp [ge_iff_le]; omega
    rw [h1, h2, Bool.false_and, Bool.or_false, Bool.true_and]
  · have h1 : decide (i < 48) = false := by simp [hi]
    have h3 : size.testBit i = false :=
      Nat.testBit_lt_two_pow
        (lt_of_lt_of_le hs (Nat.pow_le_pow_right (by decide) (by omega)))
    rw [h1, Bool.false_and, h3]

theorem or_shl_shr (size flags : Nat) (hs : size < 2 ^ 48) :
    (size ||| flags <<< 48) >>> 48 = flags := by
  apply Nat.eq_of_testBit_eq
  intro j
  rw [Nat.testBit_shiftRight, Nat.testBit_or, Nat.testBit_shiftLeft]
  have h2 : decide (48 + j ≥ 48) = true := by simp [ge_iff_le]
  have h3 : size.testBit (48 + j) = false :=
    Nat.testBit_lt_two_pow
      (lt_of_lt_of_le hs (Nat.pow_le_pow_right (by decide) (by omega)))
  rw [h2, Bool.true_and, h3, Bool.false_or]
  have h4 : 48 + j - 48 = j := by omega
  rw [h4]

/-- Claim C6: for every size representable in the compact size field
(below `2 ^ ALLOC_HDR_SIZE_SHIFT`), a 16-bit flags value and a 64-bit
extra value, the compact header written by
`memblock_header_compact_write` reads back exactly: `get_size` returns
the size (low bits of word 0), `get_flags` the flags (high 16 bits of
word 0) and `get_extra` the extra field (word 1). -/
theorem compact_header_write_get_roundtrip (size extra flags : Nat)
    (hsize : size < 2 ^ ALLOC_HDR_SIZE_SHIFT) (hflags : flags < 2 ^ 16)
    (hextra : extra < 2 ^ 64) :
    memblock_header_compact_get_size (memblock_header_compact_write size extra flags)
      = size ∧
    memblock_header_compact_get_flags (memblock_header_compact_write size extra flags)
      = flags ∧
    memblock_header_compact_get_extra (memblock_header_compact_write size extra flags)
      = extra := by
  have hs48 : size < 2 ^ 48 := hsize
  have hs64 : size % 2 ^ 64 = size :=
    Nat.mod_eq_of_lt (lt_of_lt_of_le hs48 (by norm_num))
  have hf16 : flags % 2 ^ 16 = flags := Nat.mod_eq_of_lt hflags
  refine ⟨?_, ?_, ?_⟩
  · show (size % 2 ^ 64 ||| (flags % 2 ^ 16) <<< ALLOC_HDR_SIZE_SHIFT)
        &&& ALLOC_HDR_FLAGS_MASK = size
    rw [hs64, hf16]
    exact or_shl_and_mask size flags hs48
  · show (size % 2 ^ 64 ||| (flags % 2 ^ 16) <<< ALLOC_HDR_SIZE_SHIFT)
        >>> ALLOC_HDR_SIZE_SHIFT % 2 ^ 16 = flags
    rw [hs64, hf16]
    show (size ||| flags <<< 48) >>> 48 % 2 ^ 16 = flags
    rw [or_shl_shr size flags hs48]
    exact hf16
  · show extra % 2 ^ 64 = extra
    exact Nat.mod_eq_of_lt hextra

/-- Witness for C6: size 100, extra 5, flags 7 round-trip through the
compact header. -/
theorem compact_header_write_get_roundtrip_witness :
    ((100 : Nat) < 2 ^ ALLOC_HDR_SIZE_SHIFT ∧ (7 : Nat) < 2 ^ 16 ∧ (5 : Nat) < 2 ^ 64) ∧
    memblock_header_compact_get_size (memblock_header_compact_write 100 5 7) = 100 ∧
    memblock_header_compact_get_flags (memblock_header_compact_write 100 5 7) = 7 ∧
    memblock_header_compact_get_extra (memblock_header_compact_write 100 5 7) = 5 :=
  ⟨⟨by decide, by decide, by decide⟩,
    compact_header_write_get_roundtrip 100 5 7 (by decide) (by decide) (by decide)⟩

/-- Counterexample for C7: at a cacheline-aligned header address with
`size = 64` the write is widened to a full cacheline, but the words
beyond the 16-byte header are the uninitialized contents of the local
`padded.padding` buffer — here 1, not the claimed zero. -/
theorem compact_write_padding_not_zero :
    (memblock_header_compact_write_words 0 64 0 0 (fun _ => 1)).length = 8 ∧
    (memblock_header_compact_write_words 0 64 0 0 (fun _ => 1)).getD 2 0 = 1 := by
  constructor
  · decide
  · decide

/-- Claim C7 (amended): the compact flavor's write stores exactly the 16
header bytes (two words) unless the header address is cacheline-aligned
and the size argument is at least one cacheline; in that case it issues
a single cacheline-sized persistent memcpy whose bytes beyond the
16-byte header are the indeterminate contents of the local padding
buffer (not guaranteed zero). -/
theorem compact_write_extent_characterization
    (hdrp_addr size extra flags : Nat) (padding : Fin 6 → Nat) :
    (¬(hdrp_addr % CACHELINE_SIZE = 0 ∧ CACHELINE_SIZE ≤ size) →
      memblock_header_compact_write_words hdrp_addr size extra flags padding
        = [(memblock_header_compact_write size extra flags).size,
           (memblock_header_compact_write size extra flags).extra]) ∧
    (hdrp_addr % CACHELINE_SIZE = 0 ∧ CACHELINE_SIZE ≤ size →
      memblock_header_compact_write_words hdrp_addr size extra flags padding
        = [(memblock_header_compact_write size extra flags).size,
           (memblock_header_compact_write size extra flags).extra]
          ++ List.ofFn padding) := by
  constructor
  · intro hnc
    unfold memblock_header_compact_write_words
    rw [if_neg hnc]
  · intro hc
    unfold memblock_header_compact_write_words
    rw [if_pos hc]

/-- Witness for C7 (amended): an unaligned header writes two words; an
aligned header of a cacheline-sized block writes eight. -/
theorem compact_write_extent_characterization_witness :
    (¬((8 : Nat) % CACHELINE_SIZE = 0 ∧ CACHELINE_SIZE ≤ 100) ∧
      memblock_header_compact_write_words 8 100 5 7 (fun _ => 3)
        = [(memblock_header_compact_write 100 5 7).size,
           (memblock_header_compact_write 100 5 7).extra]) ∧
    (((64 : Nat) % CACHELINE_SIZE = 0 ∧ CACHELINE_SIZE ≤ 64) ∧
      memblock_header_compact_write_words 64 64 5 7 (fun _ => 3)
        = [(memblock_header_compact_write 64 5 7).size,
           (memblock_header_compact_write 64 5 7).extra]
          ++ List.ofFn (fun _ : Fin 6 => (3 : Nat))) :=
  ⟨⟨by decide,
      (compact_write_extent_characterization 8 100 5 7 (fun _ => 3)).1 (by decide)⟩,
    ⟨by decide,
      (compact_write_extent_characterization 64 64 5 7 (fun _ => 3)).2 (by decide)⟩⟩

/-- Claim C8: `block_get_real_size` returns `block_size(m) * size_idx`
when `size_idx ≠ 0` (64-bit product) and otherwise the header flavor's
`get_size`; `block_get_user_size` is the real size minus the flavor's
header size (64 legacy, 16 compact, 0 none). -/
theorem block_get_real_user_size_rules (m : MemoryBlock) (env : BlockEnv) :
    (m.size_idx ≠ 0 → memblock_block_size m env * m.size_idx < 2 ^ 64 →
      block_get_real_size m env = memblock_block_size m env * m.size_idx) ∧
    (m.size_idx = 0 → block_get_real_size m env = memblock_header_get_size m env) ∧
    (header_type_to_size m.header_type ≤ block_get_real_size m env →
      block_get_real_size m env < 2 ^ 64 →
      block_get_user_size m env
        = block_get_real_size m env - header_type_to_size m.header_type) := by
  refine ⟨?_, ?_, ?_⟩
  · intro h0 hlt
    unfold block_get_real_size
    rw [if_pos h0]
    exact Nat.mod_eq_of_lt hlt
  · intro h0
    unfold block_get_real_size
    rw [if_neg (fun hne => hne h0)]
  · intro hle hlt
    unfold block_get_user_size
    exact sub64_of_le _ _ hle hlt

/-- Witness for C8: a compact-header run block of two 128-byte units has
real size 256 and user size 240. -/
theorem block_get_real_user_size_rules_witness :
    ((2 : Nat) ≠ 0 ∧
      memblock_block_size ⟨0, 0, 2, 0, HEADER_COMPACT, MEMORY_BLOCK_RUN⟩ ⟨128, 0, 0⟩ * 2
        < 2 ^ 64) ∧
    block_get_real_size ⟨0, 0, 2, 0, HEADER_COMPACT, MEMORY_BLOCK_RUN⟩ ⟨128, 0, 0⟩
      = memblock_block_size ⟨0, 0, 2, 0, HEADER_COMPACT, MEMORY_BLOCK_RUN⟩ ⟨128, 0, 0⟩ * 2 ∧
    block_get_user_size ⟨0, 0, 2, 0, HEADER_COMPACT, MEMORY_BLOCK_RUN⟩ ⟨128, 0, 0⟩
      = block_get_real_size ⟨0, 0, 2, 0, HEADER_COMPACT, MEMORY_BLOCK_RUN⟩ ⟨128, 0, 0⟩
        - header_type_to_size HEADER_COMPACT :=
  ⟨⟨by decide, by decide⟩,
    (block_get_real_user_size_rules ⟨0, 0, 2, 0, HEADER_COMPACT, MEMORY_BLOCK_RUN⟩
        ⟨128, 0, 0⟩).1 (by decide) (by decide),
    (block_get_real_user_size_rules ⟨0, 0, 2, 0, HEADER_COMPACT, MEMORY_BLOCK_RUN⟩
        ⟨128, 0, 0⟩).2.2 (by decide) (by decide)⟩

/-- Claim C4, evaluated at the failing input: on `stale_hdr_heap` the
offset `stale_hdr_off` addresses unit 2688 of an ALIGNED two-chunk run
and lands in the RUN_DATA chunk.  `memblock_from_offset_opt` corrects
`chunk_id` but passes the stale RUN_DATA header (flags 0) to
`run_get_alignment_padding`, so it skips the 2048-byte alignment
padding, computes `block_off = 2709` and is left with residual 32 at its
final `ASSERTeq(off, 0)`; the re-reading variant the specification
describes computes `block_off = 2688` with residual 0. -/
theorem memblock_from_offset_stale_run_data_header :
    (memblock_from_offset_opt stale_hdr_heap stale_hdr_off false).residual = 32 ∧
    (memblock_from_offset_opt stale_hdr_heap stale_hdr_off false).m.block_off = 2709 ∧
    (memblock_from_offset_opt stale_hdr_heap stale_hdr_off false).m.chunk_id = 0 ∧
    (memblock_from_offset_opt stale_hdr_heap stale_hdr_off false).type_agrees = true ∧
    (memblock_from_offset_opt_reread stale_hdr_heap stale_hdr_off false).residual = 0 ∧
    (memblock_from_offset_opt_reread stale_hdr_heap stale_hdr_off false).m.block_off = 2688 ∧
    run_get_alignment_padding (stale_hdr_heap.chunk_hdr 0 1)
        (run_data_addr stale_hdr_heap 0 0) 4096 HEADER_NONE = 0 ∧
    run_get_alignment_padding (stale_hdr_heap.chunk_hdr 0 0)
        (run_data_addr stale_hdr_heap 0 0) 4096 HEADER_NONE = 2048 := by
  refine ⟨by decide, by decide, by decide, by decide, by decide, by decide, by decide,
    by decide⟩
